import Mathlib

/-!
Shallow embedding of `src/quickset_pan_tilt/protocol.py` (Quickset pan-tilt
serial protocol codec): control-character escaping, XOR LRC checksum,
little-endian signed 16-bit integer codec, command registry, and the two
framing variants (PTCR20, addressed; PTHR90, unaddressed).

Bytes are modelled as `Nat` values (< 256 at every point the program
produces them); byte strings as `List Nat`.  Python exceptions are modelled
with `Except ProtocolError`; a Python function that can return `None` in
place of a byte string returns `Option (List Nat)`.
-/

/-- The five reserved control characters, `QuicksetProtocol.CONTROL_CHARS`. -/
def CTRL_STX : Nat := 0x02

/-- End-of-text control character. -/
def CTRL_ETX : Nat := 0x03

/-- Acknowledge control character. -/
def CTRL_ACK : Nat := 0x06

/-- Negative-acknowledge control character. -/
def CTRL_NACK : Nat := 0x15

/-- Escape control character. -/
def CTRL_ESC : Nat := 0x1b

/-- Membership test `byte in QuicksetProtocol.CONTROL_CHARS` iterates the
named tuple `(STX, ETX, ACK, NACK, ESC)`. -/
def controlChars : List Nat := [CTRL_STX, CTRL_ETX, CTRL_ACK, CTRL_NACK, CTRL_ESC]

/-- Python exceptions raised by the codec, by exception class.
`notImplementedError` is raised for an unregistered command name
(`_assemble_cmd_data_lrc`); `overflowError` by `int.to_bytes` when the value
does not fit; `typeError` when an assembler is called with arguments of the
wrong shape. -/
inductive ProtocolError where
  | notImplementedError (msg : String) : ProtocolError
  | overflowError : ProtocolError
  | typeError : ProtocolError
deriving DecidableEq

/-- `QuicksetProtocol.int_to_bytes`: `integer.to_bytes(length=2,
byteorder='little', signed=True)`.  Python raises `OverflowError` (here:
`none`) outside the signed 16-bit range; otherwise it produces the
two's-complement value `integer % 2^16` in little-endian byte order. -/
def int_to_bytes (integer : Int) : Option (List Nat) :=
  if integer < -32768 ∨ 32767 < integer then Option.none
  else
    let u : Nat := (integer % 65536).toNat
    some [u % 256, u / 256]

/-- `QuicksetProtocol.bytes_to_int`: `struct.unpack('<h', two_bytes)` —
exactly two little-endian bytes read as a signed 16-bit integer; any other
length raises `struct.error` (here: `none`). -/
def bytes_to_int (two_bytes : List Nat) : Option Int :=
  match two_bytes with
  | [b0, b1] =>
      let u : Nat := b0 + 256 * b1
      some (if u < 32768 then (u : Int) else (u : Int) - 65536)
  | _ => Option.none

/-- `QuicksetProtocol.compute_lrc`: starts from 0 and XOR-folds every byte,
returning a one-byte array. -/
def compute_lrc (byte_array : List Nat) : List Nat :=
  [byte_array.foldl (fun lrc byte => lrc ^^^ byte) 0]

/-- `QuicksetProtocol.insert_escape_sequence`: sets bit 7 of the conflicting
byte and prefixes the ESC character. -/
def insert_escape_sequence (byte : Nat) : List Nat :=
  [CTRL_ESC, byte ||| 0x80]

/-- `QuicksetProtocol.escape_control_chars`: builds a new packet, replacing
each byte that matches a control character by its escape sequence. -/
def escape_control_chars (packet : List Nat) : List Nat :=
  packet.foldl
    (fun new_packet byte =>
      if byte ∈ controlChars then new_packet ++ insert_escape_sequence byte
      else new_packet ++ [byte])
    []

/-- `QuicksetProtocol.remove_escape_sequences`, modelled faithfully to the
source including its defect: state is `(new_packet, found_esc)`.  An ESC byte
is dropped and sets the flag; any other byte is emitted, with bit 7 cleared
when the flag is set.  The source's reset of the flag (line 163) assigns a
misspelled local `found_sec`, so `found_esc` is never cleared once set —
the second component of the state is left as `st.2` in that branch. -/
def remove_escape_sequences (packet : List Nat) : List Nat :=
  (packet.foldl
    (fun st byte =>
      if byte = CTRL_ESC then
        (st.1, true)
      else if st.2 then
        (st.1 ++ [byte &&& 0x7f], st.2)
      else
        (st.1 ++ [byte], st.2))
    (([] : List Nat), false)).1

/-- Arguments passed to `assemble_packet` after the command name (`*data`):
nothing, an optional pan/tilt coordinate pair, or a timeout value. -/
inductive CmdArgs where
  | noData : CmdArgs
  | coords (pan tilt : Option Rat) : CmdArgs
  | timeoutVal (timeout : Int) : CmdArgs

/-- Python `int()` applied to a float/rational: truncation toward zero.
For a normalised rational `x` (positive denominator) this is T-division of
the numerator by the denominator. -/
def float_to_int_trunc (x : Rat) : Int :=
  x.num.tdiv (x.den : Int)

/-- `QuicksetProtocol._assemble_fault_reset`: reset flag `0x01` followed by
four zeroed jog-speed bytes. -/
def assemble_fault_reset : List Nat :=
  [0x01, 0, 0, 0, 0]

/-- `QuicksetProtocol._assemble_get_comm_timeout`: a single byte with the
query bit (bit 7) set. -/
def assemble_get_comm_timeout : List Nat :=
  [0x80]

/-- `QuicksetProtocol._assemble_set_comm_timeout`: out-of-range timeout
warns and returns `None` (here `none`); otherwise one byte holding the
timeout. -/
def assemble_set_comm_timeout (timeout : Int) : Option (List Nat) :=
  if 120 < timeout ∨ timeout < 0 then Option.none
  else some [timeout.toNat]

/-- `QuicksetProtocol._assemble_move_to_entered`: absent coordinates default
to 999.9; coordinates are scaled by 10, truncated to an integer, and encoded
little-endian, pan bytes first. -/
def assemble_move_to_entered (pan tilt : Option Rat) :
    Except ProtocolError (List Nat) :=
  let pan := pan.getD (9999 / 10 : Rat)
  let tilt := tilt.getD (9999 / 10 : Rat)
  let panInt := float_to_int_trunc (pan * 10)
  let tiltInt := float_to_int_trunc (tilt * 10)
  match int_to_bytes panInt, int_to_bytes tiltInt with
  | some pan_bytes, some tilt_bytes => .ok (pan_bytes ++ tilt_bytes)
  | _, _ => .error ProtocolError.overflowError

/-- `QuicksetProtocol._assemble_move_to_delta`: absent coordinates default
to 0; coordinates are scaled by 10, truncated to an integer, and encoded
little-endian, pan bytes first. -/
def assemble_move_to_delta (pan tilt : Option Rat) :
    Except ProtocolError (List Nat) :=
  let pan := pan.getD (0 : Rat)
  let tilt := tilt.getD (0 : Rat)
  let panInt := float_to_int_trunc (pan * 10)
  let tiltInt := float_to_int_trunc (tilt * 10)
  match int_to_bytes panInt, int_to_bytes tiltInt with
  | some pan_bytes, some tilt_bytes => .ok (pan_bytes ++ tilt_bytes)
  | _, _ => .error ProtocolError.overflowError

/-- The `number` field of `QuicksetProtocol._COMMANDS`: command name to wire
opcode; `none` when the name is not a key of the dictionary. -/
def COMMANDS_number (cmd_name : String) : Option Nat :=
  match cmd_name with
  | "get_status" => some 0x31
  | "move_absolute" => some 0x33
  | "move_delta" => some 0x34
  | "home" => some 0x35
  | "fault_reset" => some 0x31
  | "get_comm_timeout" => some 0x96
  | "set_comm_timeout" => some 0x96
  | _ => Option.none

/-- The `assemble` field of `QuicksetProtocol._COMMANDS` applied to `*data`:
the command-specific data-preparation call.  `get_status` is implemented as
`pass` in both variants and `home` as `lambda: None`, so both return `None`
(no data bytes). -/
def COMMANDS_assemble (cmd_name : String) (data : CmdArgs) :
    Except ProtocolError (Option (List Nat)) :=
  match cmd_name, data with
  | "get_status", CmdArgs.noData => .ok Option.none
  | "move_absolute", CmdArgs.coords pan tilt =>
      (assemble_move_to_entered pan tilt).map some
  | "move_delta", CmdArgs.coords pan tilt =>
      (assemble_move_to_delta pan tilt).map some
  | "home", CmdArgs.noData => .ok Option.none
  | "fault_reset", CmdArgs.noData => .ok (some assemble_fault_reset)
  | "get_comm_timeout", CmdArgs.noData => .ok (some assemble_get_comm_timeout)
  | "set_comm_timeout", CmdArgs.timeoutVal timeout =>
      .ok (assemble_set_comm_timeout timeout)
  | _, _ => .error ProtocolError.typeError

/-- `QuicksetProtocol._assemble_cmd_data_lrc`: raise `NotImplementedError`
for an unregistered command name; otherwise the opcode byte, the assembler's
data bytes when present, and the LRC computed over opcode+data. -/
def assemble_cmd_data_lrc (cmd_name : String) (data : CmdArgs) :
    Except ProtocolError (List Nat) :=
  match COMMANDS_number cmd_name with
  | Option.none =>
      .error (ProtocolError.notImplementedError
        ("Command \"" ++ cmd_name ++ "\" is not implemented."))
  | some number =>
      match COMMANDS_assemble cmd_name data with
      | .error e => .error e
      | .ok data_bytes =>
          let cmd_bytes : List Nat := [number]
          let packet :=
            match data_bytes with
            | some db => cmd_bytes ++ db
            | Option.none => cmd_bytes
          .ok (packet ++ compute_lrc packet)

/-- `PTCR20.assemble_packet` (addressed variant with identity byte):
command+data+LRC, then the identity byte inserted at the front, then
escaping, then the STX/ETX delimiters. -/
def PTCR20_assemble_packet (identity : Nat) (cmd_name : String)
    (data : CmdArgs) : Except ProtocolError (List Nat) :=
  match assemble_cmd_data_lrc cmd_name data with
  | .error e => .error e
  | .ok packet =>
      let packet := identity :: packet
      let packet := escape_control_chars packet
      .ok (CTRL_STX :: (packet ++ [CTRL_ETX]))

/-- `PTHR90.assemble_packet` (unaddressed variant): command+data+LRC, then
escaping, then the STX/ETX delimiters; no identity byte. -/
def PTHR90_assemble_packet (cmd_name : String) (data : CmdArgs) :
    Except ProtocolError (List Nat) :=
  match assemble_cmd_data_lrc cmd_name data with
  | .error e => .error e
  | .ok packet =>
      let packet := escape_control_chars packet
      .ok (CTRL_STX :: (packet ++ [CTRL_ETX]))

/-- C5: `assemble_packet("home")` on the unaddressed variant yields exactly
`[0x02, 0x35, 0x35, 0x03]`: opcode 0x35, no data bytes, LRC 0x35 (the XOR
of the opcode alone), no escaping applied, no identity byte, wrapped in
STX and ETX. -/
theorem home_frame_shape :
    PTHR90_assemble_packet "home" CmdArgs.noData = .ok [0x02, 0x35, 0x35, 0x03] := by
  rfl

/-- C6: assembling `move_delta` with pan=10.0 and tilt absent produces data
bytes `[0x64, 0x00, 0x00, 0x00]` (pan = 100 tenths little-endian first, tilt
defaulted to 0), a pre-escape body `[0x34, 0x64, 0x00, 0x00, 0x00]` whose
LRC is `0x50 = 0x34 XOR 0x64`, with degrees converted to tenths by
multiplying by 10 and truncating to an integer. -/
theorem move_delta_encoding :
    assemble_move_to_delta (some (10 : Rat)) Option.none = .ok [0x64, 0x00, 0x00, 0x00]
    ∧ float_to_int_trunc ((10 : Rat) * 10) = 100
    ∧ compute_lrc [0x34, 0x64, 0x00, 0x00, 0x00] = [0x50]
    ∧ assemble_cmd_data_lrc "move_delta" (CmdArgs.coords (some (10 : Rat)) Option.none)
        = .ok [0x34, 0x64, 0x00, 0x00, 0x00, 0x50] := by
  have h1 : assemble_move_to_delta (some (10 : Rat)) Option.none
      = .ok [0x64, 0x00, 0x00, 0x00] := by
    unfold assemble_move_to_delta
    norm_num [float_to_int_trunc]
    rfl
  have h2 : float_to_int_trunc ((10 : Rat) * 10) = 100 := by
    norm_num [float_to_int_trunc]
  have h3 : COMMANDS_assemble "move_delta" (CmdArgs.coords (some (10 : Rat)) Option.none)
      = .ok (some [0x64, 0x00, 0x00, 0x00]) := by
    rw [show COMMANDS_assemble "move_delta" (CmdArgs.coords (some (10 : Rat)) Option.none)
          = Except.map some (assemble_move_to_delta (some (10 : Rat)) Option.none) from rfl,
        h1]
    rfl
  refine ⟨h1, h2, by rfl, ?_⟩
  unfold assemble_cmd_data_lrc
  rw [h3]
  rfl

/-- C2 counterexample: `assemble_packet("set_comm_timeout", 200)` does not
fail; it returns the frame `[0x02, 0x96, 0x96, 0x03]` (opcode and LRC only,
no data bytes), so the claimed hard `InvalidArgument` failure is false. -/
theorem set_comm_timeout_200_returns_packet :
    PTHR90_assemble_packet "set_comm_timeout" (CmdArgs.timeoutVal 200)
      = .ok [0x02, 0x96, 0x96, 0x03] := by
  rfl

/-- C2 amended: for any timeout outside [0, 120] the source warns and
returns no data bytes (`_assemble_set_comm_timeout` returns `None`), and
`assemble_packet` still succeeds, producing the frame
`[STX, 0x96, 0x96, ETX]` containing only the opcode and its LRC. -/
theorem set_comm_timeout_out_of_range_warns_and_drops (timeout : Int)
    (h : 120 < timeout ∨ timeout < 0) :
    assemble_set_comm_timeout timeout = Option.none
    ∧ PTHR90_assemble_packet "set_comm_timeout" (CmdArgs.timeoutVal timeout)
        = .ok [0x02, 0x96, 0x96, 0x03] := by
  have hset : assemble_set_comm_timeout timeout = Option.none := by
    unfold assemble_set_comm_timeout
    exact if_pos h
  have hca : COMMANDS_assemble "set_comm_timeout" (CmdArgs.timeoutVal timeout)
      = .ok Option.none := by
    rw [show COMMANDS_assemble "set_comm_timeout" (CmdArgs.timeoutVal timeout)
          = .ok (assemble_set_comm_timeout timeout) from rfl, hset]
  refine ⟨hset, ?_⟩
  unfold PTHR90_assemble_packet assemble_cmd_data_lrc
  rw [hca]
  rfl

/-- Witness for the amended C2 theorem at timeout = 200. -/
theorem set_comm_timeout_out_of_range_warns_and_drops_witness :
    ((120 : Int) < 200 ∨ (200 : Int) < 0)
    ∧ (assemble_set_comm_timeout 200 = Option.none
        ∧ PTHR90_assemble_packet "set_comm_timeout" (CmdArgs.timeoutVal 200)
            = .ok [0x02, 0x96, 0x96, 0x03]) :=
  ⟨Or.inl (by decide),
   set_comm_timeout_out_of_range_warns_and_drops 200 (Or.inl (by decide))⟩

/-- C1: the escape/unescape round trip fails on the code.  For the input
`[0x02, 0x80]`, escaping yields `[0x1B, 0x82, 0x80]`, and the source's
unescape — whose ESC flag is never reset because line 163 assigns the
misspelled `found_sec` — clears bit 7 of every byte after the first escape
sequence, returning `[0x02, 0x00]` instead of `[0x02, 0x80]`. -/
theorem unescape_escape_round_trip_fails :
    escape_control_chars [0x02, 0x80] = [0x1b, 0x82, 0x80]
    ∧ remove_escape_sequences (escape_control_chars [0x02, 0x80]) = [0x02, 0x00]
    ∧ remove_escape_sequences (escape_control_chars [0x02, 0x80]) ≠ [0x02, 0x80] := by
  refine ⟨by rfl, by rfl, by decide⟩

/-- C3 counterexample: on the input `[0x1B]` — a trailing ESC with no
following byte — `remove_escape_sequences` returns the result `[]` rather
than failing: the source raises no error of any kind. -/
theorem trailing_esc_returns_result :
    remove_escape_sequences [0x1b] = [] := by
  rfl

/-- C3 amended: an unconsumed trailing ESC never causes a failure; the
source's unescape silently discards it, returning exactly the unescape of
the input without that trailing ESC. -/
theorem trailing_esc_silently_dropped (packet : List Nat) :
    remove_escape_sequences (packet ++ [CTRL_ESC]) = remove_escape_sequences packet := by
  unfold remove_escape_sequences
  rw [List.foldl_append]
  simp

/-- C7: for each byte in the control set {0x02, 0x03, 0x06, 0x15, 0x1B},
escaping the one-byte sequence yields exactly `[0x1B, byte OR 0x80]`; for
any byte outside that set, escaping the one-byte sequence leaves it
unchanged. -/
theorem escape_single_byte_coverage (b : Nat) :
    (b ∈ controlChars → escape_control_chars [b] = [CTRL_ESC, b ||| 0x80])
    ∧ (b ∉ controlChars → escape_control_chars [b] = [b]) := by
  constructor
  · intro h
    simp [escape_control_chars, insert_escape_sequence, h]
  · intro h
    simp [escape_control_chars, h]

/-- Witness for C7 at the control byte 0x02 and the ordinary byte 0x41. -/
theorem escape_single_byte_coverage_witness :
    ((0x02 : Nat) ∈ controlChars
      ∧ escape_control_chars [0x02] = [CTRL_ESC, 0x02 ||| 0x80])
    ∧ ((0x41 : Nat) ∉ controlChars
      ∧ escape_control_chars [0x41] = [0x41]) :=
  ⟨⟨by decide, (escape_single_byte_coverage 0x02).1 (by decide)⟩,
   ⟨by decide, (escape_single_byte_coverage 0x41).2 (by decide)⟩⟩

/-- C4: for any command whose command+data+LRC stage succeeds with `body`,
the addressed variant (PTCR20) inserts its identity byte at the front of
`body` — i.e. immediately after STX and before the opcode — after the LRC
inside `body` has already been computed (so the identity is never
checksummed: `body` always has the shape `core ++ lrc(core)` with the
identity absent), and before escaping; the unaddressed variant (PTHR90)
escapes the same `body` with no identity byte. -/
theorem identity_byte_placement (identity : Nat) (cmd_name : String)
    (args : CmdArgs) (body : List Nat)
    (h : assemble_cmd_data_lrc cmd_name args = .ok body) :
    PTCR20_assemble_packet identity cmd_name args
        = .ok (CTRL_STX :: (escape_control_chars (identity :: body) ++ [CTRL_ETX]))
    ∧ PTHR90_assemble_packet cmd_name args
        = .ok (CTRL_STX :: (escape_control_chars body ++ [CTRL_ETX]))
    ∧ ∃ core, body = core ++ compute_lrc core := by
  refine ⟨?_, ?_, ?_⟩
  · unfold PTCR20_assemble_packet
    rw [h]
  · unfold PTHR90_assemble_packet
    rw [h]
  · unfold assemble_cmd_data_lrc at h
    split at h
    · simp at h
    · split at h
      · simp at h
      · next data_bytes _ =>
        cases data_bytes with
        | none =>
            simp only [Except.ok.injEq] at h
            exact ⟨_, h.symm⟩
        | some db =>
            simp only [Except.ok.injEq] at h
            exact ⟨_, h.symm⟩

/-- Witness for C4 at the `home` command with identity byte 5. -/
theorem identity_byte_placement_witness :
    assemble_cmd_data_lrc "home" CmdArgs.noData = .ok [0x35, 0x35]
    ∧ (PTCR20_assemble_packet 5 "home" CmdArgs.noData
        = .ok (CTRL_STX :: (escape_control_chars (5 :: [0x35, 0x35]) ++ [CTRL_ETX]))
      ∧ PTHR90_assemble_packet "home" CmdArgs.noData
        = .ok (CTRL_STX :: (escape_control_chars [0x35, 0x35] ++ [CTRL_ETX]))
      ∧ ∃ core, [0x35, 0x35] = core ++ compute_lrc core) :=
  ⟨rfl, identity_byte_placement 5 "home" CmdArgs.noData [0x35, 0x35] rfl⟩

/-- XOR-folding a list from any accumulator is invariant under permutation
of the list, since XOR is commutative and associative. -/
theorem foldl_xor_perm (l₁ l₂ : List Nat) (h : l₁.Perm l₂) :
    ∀ a : Nat, l₁.foldl (fun lrc byte => lrc ^^^ byte) a
      = l₂.foldl (fun lrc byte => lrc ^^^ byte) a := by
  induction h with
  | nil =>
      intro a
      rfl
  | cons x _ ih =>
      intro a
      simp only [List.foldl_cons]
      exact ih _
  | swap x y l =>
      intro a
      simp only [List.foldl_cons]
      have hacc : (a ^^^ y) ^^^ x = (a ^^^ x) ^^^ y := by
        rw [Nat.xor_assoc, Nat.xor_assoc, Nat.xor_comm y x]
      rw [hacc]
  | trans _ _ ih₁ ih₂ =>
      intro a
      exact (ih₁ a).trans (ih₂ a)

/-- C8: `compute_lrc` XOR-folds its input: it maps the empty sequence to 0,
a one-byte sequence to that byte, and any two sequences that are
permutations of each other to the same checksum. -/
theorem compute_lrc_xor_fold :
    compute_lrc [] = [0]
    ∧ (∀ a : Nat, compute_lrc [a] = [a])
    ∧ ∀ l₁ l₂ : List Nat, l₁.Perm l₂ → compute_lrc l₁ = compute_lrc l₂ := by
  refine ⟨rfl, fun a => ?_, fun l₁ l₂ h => ?_⟩
  · simp [compute_lrc]
  · unfold compute_lrc
    rw [foldl_xor_perm l₁ l₂ h 0]

/-- Witness for C8 on the permuted pair `[1, 2]` / `[2, 1]`. -/
theorem compute_lrc_xor_fold_witness :
    ([1, 2] : List Nat).Perm [2, 1] ∧ compute_lrc [1, 2] = compute_lrc [2, 1] :=
  ⟨List.Perm.swap 2 1 [], compute_lrc_xor_fold.2.2 [1, 2] [2, 1] (List.Perm.swap 2 1 [])⟩

/-- C9: for any command name absent from the registry, both variants'
`assemble_packet` fail with the `NotImplementedError` (the spec's
`UnknownCommand`) carrying that name — whatever the arguments, since no
assembler exists to be invoked for an unregistered name. -/
theorem unknown_command_fails (cmd_name : String) (args : CmdArgs)
    (identity : Nat) (h : COMMANDS_number cmd_name = Option.none) :
    PTHR90_assemble_packet cmd_name args
        = .error (ProtocolError.notImplementedError
            ("Command \"" ++ cmd_name ++ "\" is not implemented."))
    ∧ PTCR20_assemble_packet identity cmd_name args
        = .error (ProtocolError.notImplementedError
            ("Command \"" ++ cmd_name ++ "\" is not implemented.")) := by
  have hl : assemble_cmd_data_lrc cmd_name args
      = .error (ProtocolError.notImplementedError
          ("Command \"" ++ cmd_name ++ "\" is not implemented.")) := by
    unfold assemble_cmd_data_lrc
    rw [h]
  constructor
  · unfold PTHR90_assemble_packet
    rw [hl]
  · unfold PTCR20_assemble_packet
    rw [hl]

/-- Witness for C9 at the command name "nonexistent". -/
theorem unknown_command_fails_witness :
    COMMANDS_number "nonexistent" = Option.none
    ∧ (PTHR90_assemble_packet "nonexistent" CmdArgs.noData
        = .error (ProtocolError.notImplementedError
            ("Command \"" ++ "nonexistent" ++ "\" is not implemented."))
      ∧ PTCR20_assemble_packet 0 "nonexistent" CmdArgs.noData
        = .error (ProtocolError.notImplementedError
            ("Command \"" ++ "nonexistent" ++ "\" is not implemented."))) :=
  ⟨rfl, unknown_command_fails "nonexistent" CmdArgs.noData 0 rfl⟩

/-- `bytes_to_int` on a two-byte list, written out. -/
theorem bytes_to_int_pair (b0 b1 : Nat) :
    bytes_to_int [b0, b1]
      = some (if b0 + 256 * b1 < 32768 then ((b0 + 256 * b1 : Nat) : Int)
              else ((b0 + 256 * b1 : Nat) : Int) - 65536) := rfl

/-- C10: for every integer in the signed 16-bit range, decoding the two
little-endian bytes produced by encoding it returns the integer unchanged. -/
theorem int_to_bytes_round_trip (v : Int)
    (h₁ : -32768 ≤ v) (h₂ : v ≤ 32767) :
    (int_to_bytes v).bind bytes_to_int = some v := by
  have hno : ¬(v < -32768 ∨ 32767 < v) := by omega
  unfold int_to_bytes
  rw [if_neg hno]
  show bytes_to_int [(v % 65536).toNat % 256, (v % 65536).toNat / 256] = some v
  rw [bytes_to_int_pair]
  simp only [Option.some.injEq]
  split
  · omega
  · omega

/-- Witness for C10 at v = -1234. -/
theorem int_to_bytes_round_trip_witness :
    (-32768 : Int) ≤ -1234 ∧ (-1234 : Int) ≤ 32767
    ∧ (int_to_bytes (-1234)).bind bytes_to_int = some (-1234) :=
  ⟨by decide, by decide, int_to_bytes_round_trip (-1234) (by decide) (by decide)⟩
